import Mathlib

/-!
Shallow embedding of `bin/mpris_flac_recorder.py`: the MPRIS to FLAC
recorder core (metadata normalisation, dedupe index, capture
supervision, playback event handling, status export), together with
theorems checking the specification's claims against it.

Modelling conventions: wall-clock instants are rationals; the
filesystem is the finite set of existing paths; fallible writes take an
explicit success flag; every externally visible action is appended to
an effect trace.
-/

namespace TrackRec

/-- Python whitespace characters as matched by `str.strip()` and the
regex class `\s`. -/
def pyIsSpace (c : Char) : Bool :=
  c = ' ' || c = '\t' || c = '\n' || c = '\r' || c = Char.ofNat 11 || c = Char.ofNat 12

/-- Drop characters satisfying `p` from both ends of a list, as
Python `strip` does. -/
def pyStripList (p : Char → Bool) (l : List Char) : List Char :=
  ((l.dropWhile p).reverse.dropWhile p).reverse

/-- Python `s.strip()`. -/
def pyStrip (s : String) : String := ⟨pyStripList pyIsSpace s.data⟩

/-- Python `s.strip(" -")`, used on the output file base name. -/
def pyStripDashSpace (s : String) : String :=
  ⟨pyStripList (fun c => c = ' ' || c = '-') s.data⟩

/-- Membership in the forbidden filename character class of `sanitize`
(line 16). -/
def forbiddenChar (c : Char) : Bool :=
  c = '/' || c = '\\' || c = ':' || c = '*' || c = '?' || c = Char.ofNat 34 ||
  c = '<' || c = '>' || c = '|'

/-- Replace each maximal run of characters satisfying `p` by the single
character `r`, as `re.sub` on a one-or-more character class does.  The
boolean argument records whether the previous character was inside a
run. -/
def collapseRuns (p : Char → Bool) (r : Char) : Bool → List Char → List Char
  | _, [] => []
  | inRun, c :: rest =>
    if p c then
      if inRun then collapseRuns p r true rest
      else r :: collapseRuns p r true rest
    else c :: collapseRuns p r false rest

/-- Python `sanitize` (lines 14-18): strip, replace forbidden runs with
an underscore, collapse whitespace runs, strip again, truncate to 180
characters, fall back to "unknown" when empty. -/
def sanitize (s : String) : String :=
  let l1 := pyStripList pyIsSpace s.data
  let l2 := collapseRuns forbiddenChar '_' false l1
  let l3 := pyStripList pyIsSpace (collapseRuns pyIsSpace ' ' false l2)
  if l3 = [] then "unknown" else ⟨l3.take 180⟩

/-- Decimal digit character (codepoint 48 + d). -/
def digitChar (d : Nat) : Char := Char.ofNat (48 + d)

/-- Decimal digits, least significant first, on explicit fuel; `n + 1`
units of fuel always suffice since the argument shrinks by division
by ten. -/
def natDigitsRevAux : Nat → Nat → List Char
  | 0, _ => []
  | fuel + 1, n =>
    if n < 10 then [digitChar n]
    else digitChar (n % 10) :: natDigitsRevAux fuel (n / 10)

/-- Decimal digits of `n`, least significant first. -/
def natDigitsRev (n : Nat) : List Char := natDigitsRevAux (n + 1) n

/-- Python `str(i)` on a natural number: decimal, most significant
digit first. -/
def natToStr (n : Nat) : String := ⟨(natDigitsRev n).reverse⟩

/-- Result of Python `int(v)` on a raw dbus value: an integer, or a
conversion error. -/
inductive PyNum where
  | int (i : Int)
  | err
  deriving DecidableEq, Repr

/-- Python `str(i)` on an integer (the recorder only renders positive
ones). -/
def intToStr (i : Int) : String :=
  if i < 0 then "-" ++ natToStr i.natAbs else natToStr i.toNat

/-- Python `to_int_str` (lines 33-41): `None` and unconvertible values
give the empty string; a converted integer gives its decimal string
when positive, else the empty string. -/
def to_int_str (v : Option PyNum) : String :=
  match v with
  | none => ""
  | some .err => ""
  | some (.int i) => if i > 0 then intToStr i else ""

/-- Normalised track metadata as returned by `Recorder.get_metadata`. -/
structure Metadata where
  trackid : String := ""
  artist : String := ""
  title : String := ""
  album : String := ""
  url : String := ""
  tracknumber : String := ""
  discnumber : String := ""
  deriving DecidableEq, Repr

/-- Raw MPRIS property bag; absent keys are `none`, values carry the
Python type the source reads them at. -/
structure RawBag where
  trackid : Option String := none
  artist : Option (List String) := none
  title : Option String := none
  album : Option String := none
  url : Option String := none
  trackNumber : Option PyNum := none
  discNumber : Option PyNum := none

/-- Python `Recorder.get_metadata` (lines 129-143) applied to a raw
property bag. -/
def get_metadata (md : RawBag) : Metadata :=
  { trackid := md.trackid.getD ""
    artist :=
      match md.artist with
      | some (a :: _) => a
      | _ => ""
    title := md.title.getD ""
    album := md.album.getD ""
    url := md.url.getD ""
    tracknumber := to_int_str md.trackNumber
    discnumber := to_int_str md.discNumber }

/-- Recorder configuration: the CLI arguments the core consumes. -/
structure Config where
  out_dir : String
  source : String
  comp_level : Nat
  min_seconds : ℚ
  dedupe : Bool

/-- The `Recorder` object's mutable fields. -/
structure RecState where
  proc : Bool
  current_path : Option String
  current_started_at : Option ℚ
  current_track_id : Option String
  current_url : Option String
  playback_status : Option String
  pending : Metadata
  seen_urls : Finset String
  deriving DecidableEq

/-- A value written into the status file.  Numeric values are kept
exact; the source renders durations with one decimal and start times
via `int`. -/
inductive SVal where
  | str (s : String)
  | num (q : ℚ)
  | int (i : Int)
  deriving DecidableEq, Repr

/-- Externally visible actions, recorded in order of occurrence. -/
inductive Eff where
  | spawn (cmd : List String) (md : Metadata)
  | removeOk (path : String)
  | removeMissing (path : String)
  | indexAppend (url : String) (ok : Bool)
  | statusWrite (fields : List (String × SVal)) (ok : Bool)
  deriving DecidableEq, Repr

/-- The filesystem, the persisted files and the effect trace around the
recorder. -/
structure World where
  fs : Finset String
  indexFile : List String
  statusFile : List (String × SVal)
  trace : List Eff
  deriving DecidableEq

/-- Python truthiness of an optional string: `None` and the empty
string are falsy. -/
def strTruthy : Option String → Bool
  | none => false
  | some s => decide (s ≠ "")

/-- Python truthiness of an optional number: `None` and zero are
falsy. -/
def numTruthy : Option ℚ → Bool
  | none => false
  | some q => decide (q ≠ 0)

/-- Python `os.remove`: delete the file, or raise when it is absent. -/
def osRemove (fs : Finset String) (p : String) : Except Unit (Finset String) :=
  if p ∈ fs then .ok (fs.erase p) else .error ()

/-- A Python file append that fails when `ok` is false. -/
def fileAppend (lines : List String) (line : String) (ok : Bool) :
    Except Unit (List String) :=
  if ok then .ok (lines ++ [line]) else .error ()

/-- The `try: os.remove(...) except FileNotFoundError: pass` block of
`Recorder._finalize` (lines 174-178): the new filesystem and the
observed effect. -/
def removeSilent (fs : Finset String) (p : String) : Finset String × Eff :=
  match osRemove fs p with
  | .ok fs2 => (fs2, .removeOk p)
  | .error _ => (fs, .removeMissing p)

/-- Python `Recorder._write_status` (lines 78-84): overwrite the status
file with the given fields; an I/O failure (`ok = false`) is swallowed
and leaves the file unchanged. -/
def Recorder.write_status (w : World) (ok : Bool) (fields : List (String × SVal)) :
    World :=
  { w with
    statusFile := if ok then fields else w.statusFile
    trace := w.trace ++ [.statusWrite fields ok] }

/-- Python `Recorder._load_index` (lines 86-94): collect the stripped
non-empty lines of the index file; a missing file gives the empty
set. -/
def Recorder.load_index (lines : Option (List String)) : Finset String :=
  match lines with
  | none => ∅
  | some ls => (((ls.map pyStrip).filter (fun u => decide (u ≠ ""))).toFinset)

/-- Python `Recorder._append_index` (lines 96-105): empty URLs are
ignored; otherwise the URL joins the in-memory set and the backing
store append is attempted, with failure logged and swallowed. -/
def Recorder.append_index (s : RecState) (w : World) (ok : Bool) (url : String) :
    RecState × World :=
  if url = "" then (s, w)
  else
    let s2 := { s with seen_urls := insert url s.seen_urls }
    let w2 := { w with trace := w.trace ++ [.indexAppend url ok] }
    match fileAppend w.indexFile url ok with
    | .ok ls => (s2, { w2 with indexFile := ls })
    | .error _ => (s2, w2)

/-- The status record published at the end of `Recorder._finalize`
(lines 188-194).  The source renders the duration with one decimal;
the embedding keeps the exact value. -/
def finalizeFields (kept : Bool) (dur : ℚ) (lastFile lastUrl : String) :
    List (String × SVal) :=
  [("STATE", .str "idle"),
   ("LAST_RESULT", .str (if kept then "KEEP" else "DROP")),
   ("LAST_DURATION", .num dur),
   ("LAST_FILE", .str lastFile),
   ("LAST_SPOTIFY_URL", .str lastUrl)]

/-- The status record published on a dedupe skip (lines 212-217). -/
def skipFields (artist title url : String) : List (String × SVal) :=
  [("STATE", .str "skipped"), ("ARTIST", .str artist),
   ("TITLE", .str title), ("SPOTIFY_URL", .str url)]

/-- The status record published after a successful start
(lines 255-262). -/
def recordingFields (artist title file : String) (startedAt : Int) (url : String) :
    List (String × SVal) :=
  [("STATE", .str "recording"),
   ("ARTIST", .str artist),
   ("TITLE", .str title),
   ("FILE", .str file),
   ("STARTED_AT", .int startedAt),
   ("SPOTIFY_URL", .str url)]

/-- Python `Recorder._finalize` (lines 157-199): a no-op when no child
is supervised; otherwise stop the child, apply the minimum-duration
policy (deleting a short file, swallowing a missing one), append a
kept URL to the dedupe index, publish status, and clear the recording
context. -/
def Recorder.finalize (cfg : Config) (now : ℚ) (idxOk statOk : Bool)
    (s : RecState) (w : World) : RecState × World :=
  if ¬ s.proc then (s, w)
  else
    let s1 := { s with proc := false }
    let out :=
      if strTruthy s1.current_path && numTruthy s1.current_started_at then
        let p := s1.current_path.getD ""
        let dur := now - s1.current_started_at.getD 0
        if dur < cfg.min_seconds then
          (false, dur,
            { w with fs := (removeSilent w.fs p).1,
                     trace := w.trace ++ [(removeSilent w.fs p).2] })
        else (true, dur, w)
      else (false, (0 : ℚ), w)
    let kept := out.1
    let dur := out.2.1
    let w1 := out.2.2
    let sw2 :=
      if kept && cfg.dedupe && strTruthy s1.current_url then
        Recorder.append_index s1 w1 idxOk (s1.current_url.getD "")
      else (s1, w1)
    let w3 := Recorder.write_status sw2.2 statOk
      (finalizeFields kept dur (s1.current_path.getD "") (s1.current_url.getD ""))
  ({ sw2.1 with current_path := none, current_started_at := none,
                current_track_id := none, current_url := none }, w3)

/-- Collision candidate `f"{base} ({i}).flac"` inside the output
directory. -/
def candPath (out_dir base : String) (i : Nat) : String :=
  out_dir ++ "/" ++ base ++ " (" ++ natToStr i ++ ").flac"

/-- The `while True` collision loop of `Recorder.unique_path`
(lines 150-155), run on explicit fuel; the wrapper passes enough fuel
for the loop to find a fresh name. -/
def unique_path_loop (fs : Finset String) (out_dir base : String) :
    Nat → Nat → String
  | i, 0 => candPath out_dir base i
  | i, fuel + 1 =>
    let p := candPath out_dir base i
    if p ∈ fs then unique_path_loop fs out_dir base (i + 1) fuel else p

/-- Python `Recorder.unique_path` (lines 145-155): sanitize the base
name, take `base.flac` when free, otherwise the first free
`base (i).flac` for i = 2, 3, ...  `fs.card + 1` candidates always
contain a free one, so this fuel makes the loop total. -/
def unique_path (fs : Finset String) (out_dir baseRaw : String) : String :=
  let base := sanitize baseRaw
  let path := out_dir ++ "/" ++ base ++ ".flac"
  if path ∈ fs then unique_path_loop fs out_dir base 2 (fs.card + 1) else path

/-- The ffmpeg invocation (lines 227-246): fixed capture and codec
options, tag arguments only for non-empty fields, then the output
path. -/
def ffmpegCmd (cfg : Config) (md : Metadata) (out_path : String) : List String :=
  ["ffmpeg", "-hide_banner", "-loglevel", "error",
   "-f", "pulse", "-i", cfg.source,
   "-acodec", "flac",
   "-compression_level", natToStr cfg.comp_level,
   "-metadata", "ARTIST=" ++ md.artist,
   "-metadata", "TITLE=" ++ md.title] ++
  (if md.album ≠ "" then ["-metadata", "ALBUM=" ++ md.album] else []) ++
  (if md.url ≠ "" then ["-metadata", "SPOTIFY_URL=" ++ md.url] else []) ++
  (if md.tracknumber ≠ "" then ["-metadata", "TRACKNUMBER=" ++ md.tracknumber] else []) ++
  (if md.discnumber ≠ "" then ["-metadata", "DISCNUMBER=" ++ md.discnumber] else []) ++
  [out_path]

/-- Python `Recorder._start` (lines 201-262): skip when dedupe already
knows the URL (still advancing the last-seen track id), otherwise
derive a unique output path, spawn the encoder and populate the
recording context; both branches publish a status record. -/
def Recorder.start (cfg : Config) (now : ℚ) (statOk : Bool) (md : Metadata)
    (s : RecState) (w : World) : RecState × World :=
  let url := md.url
  if cfg.dedupe ∧ url ≠ "" ∧ url ∈ s.seen_urls then
    let artist := pyStrip md.artist
    let title := pyStrip md.title
    let w1 := Recorder.write_status w statOk (skipFields artist title url)
    ({ s with current_track_id := some md.trackid, current_url := some url }, w1)
  else
    let name := pyStripDashSpace (md.artist ++ " - " ++ md.title)
    let out_path := unique_path w.fs cfg.out_dir name
    let cmd := ffmpegCmd cfg md out_path
    let w1 := { w with trace := w.trace ++ [.spawn cmd md] }
    let s1 := { s with proc := true, current_path := some out_path,
                       current_started_at := some now,
                       current_track_id := some md.trackid,
                       current_url := some url }
    let w2 := Recorder.write_status w1 statOk
      (recordingFields (pyStrip md.artist) (pyStrip md.title) out_path ⌊now⌋ url)
    (s1, w2)

/-- One notification delivery: the optional new `PlaybackStatus`,
whether the `Metadata` key changed, the metadata the bus currently
reports, the wall clock, and the success of index and status writes
performed while handling this delivery. -/
structure Ev where
  statusChange : Option String
  mdChange : Bool
  busMd : Metadata
  now : ℚ
  idxOk : Bool
  statOk : Bool

/-- Python `Recorder._ensure_started` (lines 264-274): only in Playing
with no supervised child; falls back to a fresh metadata fetch when
the pending metadata has no title; starts only when a title is
present. -/
def Recorder.ensure_started (cfg : Config) (ev : Ev) (s : RecState) (w : World) :
    RecState × World :=
  if s.playback_status ≠ some "Playing" ∨ s.proc then (s, w)
  else
    let pair :=
      if s.pending.title = "" then (ev.busMd, { s with pending := ev.busMd })
      else (s.pending, s)
    let md := pair.1
    let s1 := pair.2
    if md.title ≠ "" then Recorder.start cfg ev.now ev.statOk md s1 w
    else (s1, w)

/-- The `"PlaybackStatus" in changed` block of
`Recorder.on_properties_changed` (lines 280-285): store the status,
then finalize on Paused/Stopped or ensure a start on Playing. -/
def Recorder.status_part (cfg : Config) (ev : Ev) (s : RecState) (w : World) :
    RecState × World :=
  match ev.statusChange with
  | none => (s, w)
  | some st =>
    let sA := { s with playback_status := some st }
    if st = "Paused" ∨ st = "Stopped" then
      Recorder.finalize cfg ev.now ev.idxOk ev.statOk sA w
    else if st = "Playing" then Recorder.ensure_started cfg ev sA w
    else (sA, w)

/-- The `"Metadata" in changed` block of
`Recorder.on_properties_changed` (lines 287-298): cache the fresh
metadata; when Playing, either ensure a start (idle) or, on a changed
non-empty track id, finalize the current recording and start the new
track. -/
def Recorder.metadata_part (cfg : Config) (ev : Ev) (s : RecState) (w : World) :
    RecState × World :=
  if ev.mdChange then
    let md := ev.busMd
    let s2 := { s with pending := md }
    if s2.playback_status ≠ some "Playing" then (s2, w)
    else if ¬ s2.proc then Recorder.ensure_started cfg ev s2 w
    else if md.trackid ≠ "" ∧ some md.trackid ≠ s2.current_track_id then
      let sw3 := Recorder.finalize cfg ev.now ev.idxOk ev.statOk s2 w
      Recorder.start cfg ev.now ev.statOk md sw3.1 sw3.2
    else (s2, w)
  else (s, w)

/-- Python `Recorder.on_properties_changed` (lines 276-298) for a
delivery on the Player interface: the status block, then the metadata
block. -/
def Recorder.on_properties_changed (cfg : Config) (ev : Ev) (s : RecState)
    (w : World) : RecState × World :=
  let sw1 := Recorder.status_part cfg ev s w
  Recorder.metadata_part cfg ev sw1.1 sw1.2

/-- Recorder construction (lines 45-76): empty recording context,
index load when dedupe is on (`none` models a missing index file),
then an initial idle status write. -/
def Recorder.init (cfg : Config) (indexLines : Option (List String)) (statOk : Bool)
    (w : World) : RecState × World :=
  let s : RecState :=
    { proc := false, current_path := none, current_started_at := none,
      current_track_id := none, current_url := none,
      playback_status := none, pending := {},
      seen_urls := if cfg.dedupe then Recorder.load_index indexLines else ∅ }
  (s, Recorder.write_status w statOk [("STATE", .str "idle")])

/-- Process a list of notification deliveries in order. -/
def Recorder.run (cfg : Config) : List Ev → RecState × World → RecState × World
  | [], sw => sw
  | ev :: rest, sw => Recorder.run cfg rest (Recorder.on_properties_changed cfg ev sw.1 sw.2)

/-- Python `Recorder.prime` (lines 300-307): fetch the playback status
and metadata once; if already Playing, attempt a start. -/
def Recorder.prime (cfg : Config) (ev : Ev) (st0 : String) (s : RecState) (w : World) :
    RecState × World :=
  let s1 := { s with playback_status := some st0, pending := ev.busMd }
  if st0 = "Playing" then Recorder.ensure_started cfg ev s1 w else (s1, w)

/-- Python `Recorder.shutdown` (lines 309-310): finalize any active
recording. -/
def Recorder.shutdown (cfg : Config) (now : ℚ) (idxOk statOk : Bool)
    (s : RecState) (w : World) : RecState × World :=
  Recorder.finalize cfg now idxOk statOk s w

/-- The recorder state with the recording context cleared, as at the
end of `Recorder._finalize` (lines 196-199). -/
def clearedState (s : RecState) : RecState :=
  { s with proc := false, current_path := none, current_started_at := none,
           current_track_id := none, current_url := none }

/-- State invariant relating the recording context to the supervised
child: the child is supervised exactly when an output path (and a
start instant) is held, and a supervised child always comes with a
track id and URL. -/
def ctxInv (s : RecState) : Prop :=
  (s.proc = true ↔ s.current_path ≠ none) ∧
  (s.proc = true ↔ s.current_started_at ≠ none) ∧
  (s.proc = true → s.current_track_id ≠ none ∧ s.current_url ≠ none)

/-- An effect is benign for the empty-title property: either it is not
a spawn, or the spawned metadata has a non-empty title. -/
def spawnTitledOk : Eff → Bool
  | .spawn _ md => decide (md.title ≠ "")
  | _ => true

/-- A delivery whose metadata change cannot drive the unguarded
track-advance start with an empty title: if the metadata changed, it
either has a title or has no track id. -/
def evTitleGuard (ev : Ev) : Bool :=
  !ev.mdChange || decide (ev.busMd.title ≠ "") || decide (ev.busMd.trackid = "")

/-- Iterate `unique_path` for one base name, each produced path
becoming an existing file before the next request. -/
def unique_path_iter (out_dir base : String) : Finset String → Nat → List String
  | _, 0 => []
  | fs, n + 1 =>
    let p := unique_path fs out_dir base
    p :: unique_path_iter out_dir base (insert p fs) n

/-- A trace extends a base trace using only effects that are benign
for the empty-title property. -/
def subOk (t0 t : List Eff) : Prop :=
  ∀ e ∈ t, e ∈ t0 ∨ spawnTitledOk e = true

/-- Sample configuration with deduplication on. -/
def sampleCfg : Config := ⟨"out", "rec.monitor", 5, 30, true⟩

/-- Sample configuration with deduplication off. -/
def plainCfg : Config := ⟨"out", "rec.monitor", 5, 30, false⟩

/-- An empty world: no files, no index, no status, no effects. -/
def emptyWorld : World := ⟨∅, [], [], []⟩

/-- An idle recorder state. -/
def idleState : RecState :=
  ⟨false, none, none, none, none, some "Paused", {}, ∅⟩

/-- A recorder state with a supervised child and populated context. -/
def recordingState : RecState :=
  ⟨true, some "out/A.flac", some 100, some "t1", some "u1", some "Playing", {}, ∅⟩

/-- An idle Playing state whose dedupe set already contains `u1`. -/
def seenState : RecState :=
  ⟨false, none, none, none, none, some "Playing", {}, {"u1"}⟩

/-- Metadata whose URL is already in `seenState`'s dedupe set. -/
def skipMd : Metadata := { trackid := "t2", artist := "B", title := "T", url := "u1" }

/-- Metadata with an empty external URL. -/
def noUrlMd : Metadata := { trackid := "t3", artist := "C", title := "S", url := "" }

/-- Metadata with a title, for the plain start path. -/
def titledMd : Metadata := { trackid := "t1", artist := "Ar", title := "A", url := "u1" }

/-- Metadata with a new track id and no title, driving the unguarded
track-advance start. -/
def untitledMd : Metadata := { trackid := "t2", artist := "", title := "", url := "u2" }

/-- A Playing status delivery reporting `titledMd` on the bus. -/
def playEv : Ev := ⟨some "Playing", false, titledMd, 0, true, true⟩

/-- A metadata-change delivery reporting `untitledMd` on the bus. -/
def advanceEv : Ev := ⟨none, true, untitledMd, 0, true, true⟩

/-- A Playing status delivery reporting `skipMd` on the bus. -/
def skipEv : Ev := ⟨some "Playing", false, skipMd, 0, true, true⟩

/-- A raw bag with a non-positive track number and an unparsable disc
number. -/
def sampleBag : RawBag :=
  { trackid := some "t1", artist := some ["Ar", "Al"], title := some "A",
    album := none, url := some "u1", trackNumber := some (.int (-3)),
    discNumber := some .err }

theorem removeSilent_eq (fs : Finset String) (p : String) :
    removeSilent fs p =
      if p ∈ fs then (fs.erase p, .removeOk p) else (fs, .removeMissing p) := by
  unfold removeSilent osRemove
  by_cases h : p ∈ fs <;> simp [h]

theorem append_index_eq (s : RecState) (w : World) (ok : Bool) (url : String) :
    Recorder.append_index s w ok url =
      if url = "" then (s, w)
      else
        ({ s with seen_urls := insert url s.seen_urls },
         { w with indexFile := if ok then w.indexFile ++ [url] else w.indexFile,
                  trace := w.trace ++ [.indexAppend url ok] }) := by
  unfold Recorder.append_index fileAppend
  cases ok <;> simp

theorem append_index_fst_proc (s : RecState) (w : World) (ok : Bool) (url : String) :
    (Recorder.append_index s w ok url).1.proc = s.proc := by
  rw [append_index_eq]
  split <;> rfl

theorem finalize_not_proc (cfg : Config) (now : ℚ) (i o : Bool) (s : RecState) (w : World)
    (h : s.proc = false) : Recorder.finalize cfg now i o s w = (s, w) := by
  simp [Recorder.finalize, h]

theorem finalize_fst_proc (cfg : Config) (now : ℚ) (i o : Bool) (s : RecState) (w : World) :
    (Recorder.finalize cfg now i o s w).1.proc = false := by
  by_cases h : s.proc = true
  · unfold Recorder.finalize
    simp only [h, not_true, if_neg, ite_false]
    repeat' split
    all_goals simp [append_index_fst_proc]
  · simp [finalize_not_proc cfg now i o s w (by simpa using h), Bool.not_eq_true] at h ⊢
    exact h

theorem finalize_drop_eq (cfg : Config) (now : ℚ) (i o : Bool) (s : RecState) (w : World)
    (p : String) (t0 : ℚ)
    (h1 : s.proc = true) (h2 : s.current_path = some p) (h3 : p ≠ "")
    (h4 : s.current_started_at = some t0) (h5 : t0 ≠ 0)
    (hlt : now - t0 < cfg.min_seconds) :
    Recorder.finalize cfg now i o s w =
      (clearedState s,
       Recorder.write_status
         { w with fs := (removeSilent w.fs p).1,
                  trace := w.trace ++ [(removeSilent w.fs p).2] }
         o (finalizeFields false (now - t0) p (s.current_url.getD ""))) := by
  unfold Recorder.finalize
  simp [h1, h2, h3, h4, h5, strTruthy, numTruthy, hlt, clearedState]

theorem finalize_keep_eq (cfg : Config) (now : ℚ) (i o : Bool) (s : RecState) (w : World)
    (p : String) (t0 : ℚ)
    (h1 : s.proc = true) (h2 : s.current_path = some p) (h3 : p ≠ "")
    (h4 : s.current_started_at = some t0) (h5 : t0 ≠ 0)
    (hge : ¬ now - t0 < cfg.min_seconds) :
    Recorder.finalize cfg now i o s w =
      ({ clearedState s with
           seen_urls :=
             if cfg.dedupe && strTruthy s.current_url then
               insert (s.current_url.getD "") s.seen_urls
             else s.seen_urls },
       Recorder.write_status
         (if cfg.dedupe && strTruthy s.current_url then
            { w with indexFile := if i then w.indexFile ++ [s.current_url.getD ""] else w.indexFile,
                     trace := w.trace ++ [.indexAppend (s.current_url.getD "") i] }
          else w)
         o (finalizeFields true (now - t0) p (s.current_url.getD ""))) := by
  have e1 : (strTruthy (some p) && numTruthy (some t0)) = true := by
    simp [strTruthy, numTruthy, h3, h5]
  unfold Recorder.finalize
  simp only [h1, h2, h4, e1, not_true, if_neg, ite_false, ite_true, Option.getD_some,
    if_neg hge, Bool.true_and]
  by_cases hc : (cfg.dedupe && strTruthy s.current_url) = true
  · have hu : s.current_url.getD "" ≠ "" := by
      rcases Bool.and_eq_true_iff.mp hc with ⟨-, hu2⟩
      cases hcu : s.current_url with
      | none => rw [hcu] at hu2; simp [strTruthy] at hu2
      | some u =>
        rw [hcu] at hu2
        simp only [strTruthy, decide_eq_true_eq] at hu2
        simpa [hcu] using hu2
    simp only [hc, ite_true, append_index_eq, if_neg hu, clearedState]
  · simp only [Bool.not_eq_true] at hc
    simp [hc, clearedState]

theorem start_skip_eq (cfg : Config) (now : ℚ) (o : Bool) (md : Metadata)
    (s : RecState) (w : World)
    (hd : cfg.dedupe = true) (hu : md.url ≠ "") (hm : md.url ∈ s.seen_urls) :
    Recorder.start cfg now o md s w =
      ({ s with current_track_id := some md.trackid, current_url := some md.url },
       Recorder.write_status w o (skipFields (pyStrip md.artist) (pyStrip md.title) md.url)) := by
  unfold Recorder.start
  rw [if_pos ⟨hd, hu, hm⟩]

theorem start_spawn_eq (cfg : Config) (now : ℚ) (o : Bool) (md : Metadata)
    (s : RecState) (w : World)
    (hn : ¬ (cfg.dedupe = true ∧ md.url ≠ "" ∧ md.url ∈ s.seen_urls)) :
    Recorder.start cfg now o md s w =
      ({ s with proc := true,
                current_path := some (unique_path w.fs cfg.out_dir
                  (pyStripDashSpace (md.artist ++ " - " ++ md.title))),
                current_started_at := some now,
                current_track_id := some md.trackid,
                current_url := some md.url },
       Recorder.write_status
         { w with trace := w.trace ++
             [.spawn (ffmpegCmd cfg md (unique_path w.fs cfg.out_dir
                (pyStripDashSpace (md.artist ++ " - " ++ md.title)))) md] }
         o
         (recordingFields (pyStrip md.artist) (pyStrip md.title)
           (unique_path w.fs cfg.out_dir (pyStripDashSpace (md.artist ++ " - " ++ md.title)))
           ⌊now⌋ md.url)) := by
  unfold Recorder.start
  rw [if_neg hn]

-- sample values for witnesses (will live in def section of final file)

-- C5
/-- C5: `_finalize` while no child process is active is a no-op, so for
every state, calling `_finalize` twice in a row has the same observable
effect on recorder state, files and the dedupe index as calling it
once. -/
theorem finalize_idempotent :
    (∀ (cfg : Config) (now : ℚ) (i o : Bool) (s : RecState) (w : World),
       s.proc = false → Recorder.finalize cfg now i o s w = (s, w)) ∧
    (∀ (cfg : Config) (n1 n2 : ℚ) (i1 o1 i2 o2 : Bool) (s : RecState) (w : World),
       Recorder.finalize cfg n2 i2 o2 (Recorder.finalize cfg n1 i1 o1 s w).1
           (Recorder.finalize cfg n1 i1 o1 s w).2 =
         Recorder.finalize cfg n1 i1 o1 s w) := by
  refine ⟨fun cfg now i o s w h => finalize_not_proc cfg now i o s w h, ?_⟩
  intro cfg n1 n2 i1 o1 i2 o2 s w
  rw [finalize_not_proc _ _ _ _ _ _ (finalize_fst_proc cfg n1 i1 o1 s w)]

/-- C5 witness: the no-op part of `finalize_idempotent` at a concrete
idle state. -/
theorem finalize_idempotent_witness :
    idleState.proc = false ∧
    Recorder.finalize sampleCfg 5 true true idleState emptyWorld = (idleState, emptyWorld) :=
  ⟨rfl, finalize_idempotent.1 sampleCfg 5 true true idleState emptyWorld rfl⟩

-- C3
/-- C3: on finalize of an active recording, a duration at or above the
threshold keeps the file (filesystem unchanged) and reports KEEP; a
duration strictly below it removes the file from disk and reports
DROP; in both cases the supervisor returns to Idle. -/
theorem finalize_duration_policy (cfg : Config) (now : ℚ) (i o : Bool)
    (s : RecState) (w : World) (p : String) (t0 : ℚ)
    (h1 : s.proc = true) (h2 : s.current_path = some p) (h3 : p ≠ "")
    (h4 : s.current_started_at = some t0) (h5 : t0 ≠ 0) :
    (Recorder.finalize cfg now i o s w).1.proc = false ∧
    (cfg.min_seconds ≤ now - t0 →
      (Recorder.finalize cfg now i o s w).2.fs = w.fs ∧
      Eff.statusWrite (finalizeFields true (now - t0) p (s.current_url.getD "")) o
        ∈ (Recorder.finalize cfg now i o s w).2.trace) ∧
    (now - t0 < cfg.min_seconds →
      p ∉ (Recorder.finalize cfg now i o s w).2.fs ∧
      Eff.statusWrite (finalizeFields false (now - t0) p (s.current_url.getD "")) o
        ∈ (Recorder.finalize cfg now i o s w).2.trace) := by
  refine ⟨finalize_fst_proc cfg now i o s w, ?_, ?_⟩
  · intro hge
    rw [finalize_keep_eq cfg now i o s w p t0 h1 h2 h3 h4 h5 (not_lt.mpr hge)]
    constructor
    · simp only [Recorder.write_status]
      split <;> rfl
    · simp [Recorder.write_status]
  · intro hlt
    rw [finalize_drop_eq cfg now i o s w p t0 h1 h2 h3 h4 h5 hlt]
    constructor
    · simp only [Recorder.write_status, removeSilent_eq]
      split
      · simp [Finset.not_mem_erase]
      · next h => simpa using h
    · simp [Recorder.write_status]

/-- C3 witness: `finalize_duration_policy` on a concrete 50-second
recording against a 30-second threshold. -/
theorem finalize_duration_policy_witness :
    recordingState.proc = true ∧ recordingState.current_path = some "out/A.flac" ∧
    ("out/A.flac" : String) ≠ "" ∧ recordingState.current_started_at = some 100 ∧
    (100 : ℚ) ≠ 0 ∧
    ((Recorder.finalize sampleCfg 150 true true recordingState emptyWorld).1.proc = false ∧
     (sampleCfg.min_seconds ≤ 150 - 100 →
       (Recorder.finalize sampleCfg 150 true true recordingState emptyWorld).2.fs = emptyWorld.fs ∧
       Eff.statusWrite (finalizeFields true (150 - 100) "out/A.flac"
           (recordingState.current_url.getD "")) true
         ∈ (Recorder.finalize sampleCfg 150 true true recordingState emptyWorld).2.trace) ∧
     (150 - 100 < sampleCfg.min_seconds →
       "out/A.flac" ∉ (Recorder.finalize sampleCfg 150 true true recordingState emptyWorld).2.fs ∧
       Eff.statusWrite (finalizeFields false (150 - 100) "out/A.flac"
           (recordingState.current_url.getD "")) true
         ∈ (Recorder.finalize sampleCfg 150 true true recordingState emptyWorld).2.trace)) :=
  ⟨rfl, rfl, by decide, rfl, by decide,
   finalize_duration_policy sampleCfg 150 true true recordingState emptyWorld "out/A.flac" 100
     rfl rfl (by decide) rfl (by decide)⟩

-- C10
/-- C10: finalizing a below-threshold recording whose output file is
absent completes normally: the failed deletion is swallowed, DROP is
still reported with the computed duration, and the context is fully
cleared. -/
theorem finalize_missing_file (cfg : Config) (now : ℚ) (i o : Bool)
    (s : RecState) (w : World) (p : String) (t0 : ℚ)
    (h1 : s.proc = true) (h2 : s.current_path = some p) (h3 : p ≠ "")
    (h4 : s.current_started_at = some t0) (h5 : t0 ≠ 0)
    (hlt : now - t0 < cfg.min_seconds) (hnf : p ∉ w.fs) :
    (Recorder.finalize cfg now i o s w).1 = clearedState s ∧
    (Recorder.finalize cfg now i o s w).2.fs = w.fs ∧
    Eff.removeMissing p ∈ (Recorder.finalize cfg now i o s w).2.trace ∧
    Eff.statusWrite (finalizeFields false (now - t0) p (s.current_url.getD "")) o
      ∈ (Recorder.finalize cfg now i o s w).2.trace := by
  rw [finalize_drop_eq cfg now i o s w p t0 h1 h2 h3 h4 h5 hlt, removeSilent_eq]
  rw [if_neg hnf]
  refine ⟨rfl, rfl, ?_, ?_⟩ <;> simp [Recorder.write_status]

/-- C10 witness: `finalize_missing_file` on a concrete 10-second
recording whose file does not exist. -/
theorem finalize_missing_file_witness :
    recordingState.proc = true ∧ recordingState.current_path = some "out/A.flac" ∧
    ("out/A.flac" : String) ≠ "" ∧ recordingState.current_started_at = some 100 ∧
    (100 : ℚ) ≠ 0 ∧ (110 : ℚ) - 100 < sampleCfg.min_seconds ∧
    "out/A.flac" ∉ emptyWorld.fs ∧
    ((Recorder.finalize sampleCfg 110 true true recordingState emptyWorld).1 =
       clearedState recordingState ∧
     (Recorder.finalize sampleCfg 110 true true recordingState emptyWorld).2.fs = emptyWorld.fs ∧
     Eff.removeMissing "out/A.flac"
       ∈ (Recorder.finalize sampleCfg 110 true true recordingState emptyWorld).2.trace ∧
     Eff.statusWrite (finalizeFields false ((110 : ℚ) - 100) "out/A.flac"
         (recordingState.current_url.getD "")) true
       ∈ (Recorder.finalize sampleCfg 110 true true recordingState emptyWorld).2.trace) :=
  ⟨rfl, rfl, by decide, rfl, by decide, by norm_num [sampleCfg], by decide,
   finalize_missing_file sampleCfg 110 true true recordingState emptyWorld "out/A.flac" 100
     rfl rfl (by decide) rfl (by decide) (by norm_num [sampleCfg]) (by decide)⟩

-- C9 helper: finalize with falsy current_url never touches the index
theorem finalize_index_of_url_falsy (cfg : Config) (now : ℚ) (i o : Bool)
    (s : RecState) (w : World) (h : strTruthy s.current_url = false) :
    (Recorder.finalize cfg now i o s w).1.seen_urls = s.seen_urls ∧
    (Recorder.finalize cfg now i o s w).2.indexFile = w.indexFile := by
  unfold Recorder.finalize
  by_cases hp : s.proc = true
  · simp only [hp, not_true, if_neg, ite_false, ite_true]
    repeat' split
    all_goals simp_all [Recorder.write_status]
  · simp only [Bool.not_eq_true] at hp
    simp [hp]

-- seen_urls monotonicity ladder
theorem append_index_seen_mono (s : RecState) (w : World) (ok : Bool) (url : String) :
    s.seen_urls ⊆ (Recorder.append_index s w ok url).1.seen_urls := by
  rw [append_index_eq]
  split
  · exact Finset.Subset.refl _
  · exact Finset.subset_insert _ _

theorem finalize_seen_mono (cfg : Config) (now : ℚ) (i o : Bool) (s : RecState) (w : World) :
    s.seen_urls ⊆ (Recorder.finalize cfg now i o s w).1.seen_urls := by
  unfold Recorder.finalize
  by_cases hp : s.proc = true
  · simp only [hp, not_true, if_neg, ite_false, ite_true]
    repeat' split
    all_goals simp [append_index_eq, Finset.subset_insert, Finset.Subset.refl]
    all_goals split <;> simp [Finset.subset_insert, Finset.Subset.refl]
  · simp only [Bool.not_eq_true] at hp
    simp [hp]

theorem start_seen_eq (cfg : Config) (now : ℚ) (o : Bool) (md : Metadata)
    (s : RecState) (w : World) :
    (Recorder.start cfg now o md s w).1.seen_urls = s.seen_urls := by
  unfold Recorder.start
  dsimp only
  split <;> rfl

theorem ensure_started_seen_eq (cfg : Config) (ev : Ev) (s : RecState) (w : World) :
    (Recorder.ensure_started cfg ev s w).1.seen_urls = s.seen_urls := by
  unfold Recorder.ensure_started
  dsimp only
  repeat' split
  all_goals simp [start_seen_eq]

theorem status_part_seen_mono (cfg : Config) (ev : Ev) (s : RecState) (w : World) :
    s.seen_urls ⊆ (Recorder.status_part cfg ev s w).1.seen_urls := by
  unfold Recorder.status_part
  cases ev.statusChange with
  | none => exact Finset.Subset.refl _
  | some st =>
    dsimp only
    split
    · exact finalize_seen_mono cfg ev.now ev.idxOk ev.statOk
        { s with playback_status := some st } w
    · split
      · rw [ensure_started_seen_eq]
      · exact Finset.Subset.refl _

theorem metadata_part_seen_mono (cfg : Config) (ev : Ev) (s : RecState) (w : World) :
    s.seen_urls ⊆ (Recorder.metadata_part cfg ev s w).1.seen_urls := by
  unfold Recorder.metadata_part
  dsimp only
  split
  · split
    · exact Finset.Subset.refl _
    · split
      · rw [ensure_started_seen_eq]
      · split
        · rw [start_seen_eq]
          exact finalize_seen_mono cfg ev.now ev.idxOk ev.statOk
            { s with pending := ev.busMd } w
        · exact Finset.Subset.refl _
  · exact Finset.Subset.refl _

theorem step_seen_mono (cfg : Config) (ev : Ev) (s : RecState) (w : World) :
    s.seen_urls ⊆ (Recorder.on_properties_changed cfg ev s w).1.seen_urls := by
  unfold Recorder.on_properties_changed
  exact Finset.Subset.trans (status_part_seen_mono cfg ev s w)
    (metadata_part_seen_mono cfg ev _ _)

-- C4
/-- C4: with dedupe on, a start attempt for a non-empty URL already in
the index only publishes a skip record: no spawn, no new path, index
and filesystem unchanged, and the last-seen track id advanced; and the
in-memory index only ever grows, so the skip applies to every
subsequent attempt. -/
theorem dedupe_skip_on_seen_url :
    (∀ (cfg : Config) (now : ℚ) (o : Bool) (md : Metadata) (s : RecState) (w : World),
       cfg.dedupe = true → md.url ≠ "" → md.url ∈ s.seen_urls →
       Recorder.start cfg now o md s w =
         ({ s with current_track_id := some md.trackid, current_url := some md.url },
          Recorder.write_status w o
            (skipFields (pyStrip md.artist) (pyStrip md.title) md.url)) ∧
       (Recorder.start cfg now o md s w).2.trace =
         w.trace ++ [.statusWrite (skipFields (pyStrip md.artist) (pyStrip md.title) md.url) o] ∧
       (Recorder.start cfg now o md s w).1.seen_urls = s.seen_urls ∧
       (Recorder.start cfg now o md s w).2.indexFile = w.indexFile ∧
       (Recorder.start cfg now o md s w).2.fs = w.fs ∧
       (Recorder.start cfg now o md s w).1.current_track_id = some md.trackid) ∧
    (∀ (cfg : Config) (ev : Ev) (s : RecState) (w : World),
       s.seen_urls ⊆ (Recorder.on_properties_changed cfg ev s w).1.seen_urls) := by
  constructor
  · intro cfg now o md s w hd hu hm
    rw [start_skip_eq cfg now o md s w hd hu hm]
    exact ⟨rfl, rfl, rfl, rfl, rfl, rfl⟩
  · exact step_seen_mono


/-- C4 witness: `dedupe_skip_on_seen_url` at a concrete state whose
index already holds the URL. -/
theorem dedupe_skip_on_seen_url_witness :
    sampleCfg.dedupe = true ∧ skipMd.url ≠ "" ∧ skipMd.url ∈ seenState.seen_urls ∧
    (Recorder.start sampleCfg 0 true skipMd seenState emptyWorld =
       ({ seenState with current_track_id := some skipMd.trackid,
                         current_url := some skipMd.url },
        Recorder.write_status emptyWorld true
          (skipFields (pyStrip skipMd.artist) (pyStrip skipMd.title) skipMd.url))) :=
  ⟨rfl, by decide, by decide,
   ((dedupe_skip_on_seen_url.1 sampleCfg 0 true skipMd seenState emptyWorld
      rfl (by decide) (by decide)).1)⟩

-- C9
/-- C9: tracks with an empty URL bypass deduplication: a start attempt
with an empty URL always spawns, `_append_index` ignores the empty
URL, and finalize never touches the index when the recorded URL is
empty or absent. -/
theorem empty_url_bypasses_dedupe :
    (∀ (cfg : Config) (now : ℚ) (o : Bool) (md : Metadata) (s : RecState) (w : World),
       md.url = "" →
       (Recorder.start cfg now o md s w).1.proc = true ∧
       Eff.spawn
         (ffmpegCmd cfg md (unique_path w.fs cfg.out_dir
           (pyStripDashSpace (md.artist ++ " - " ++ md.title)))) md
         ∈ (Recorder.start cfg now o md s w).2.trace) ∧
    (∀ (s : RecState) (w : World) (ok : Bool),
       Recorder.append_index s w ok "" = (s, w)) ∧
    (∀ (cfg : Config) (now : ℚ) (i o : Bool) (s : RecState) (w : World),
       (s.current_url = none ∨ s.current_url = some "") →
       (Recorder.finalize cfg now i o s w).1.seen_urls = s.seen_urls ∧
       (Recorder.finalize cfg now i o s w).2.indexFile = w.indexFile) := by
  refine ⟨?_, ?_, ?_⟩
  · intro cfg now o md s w hu
    have hn : ¬ (cfg.dedupe = true ∧ md.url ≠ "" ∧ md.url ∈ s.seen_urls) := by
      rintro ⟨-, h2, -⟩; exact h2 hu
    rw [start_spawn_eq cfg now o md s w hn]
    exact ⟨rfl, by simp [Recorder.write_status]⟩
  · intro s w ok
    rw [append_index_eq]
    simp
  · intro cfg now i o s w h
    refine finalize_index_of_url_falsy cfg now i o s w ?_
    rcases h with h | h <;> simp [h, strTruthy]


/-- C9 witness: `empty_url_bypasses_dedupe` at concrete inputs with
empty URLs. -/
theorem empty_url_bypasses_dedupe_witness :
    noUrlMd.url = "" ∧
    ((Recorder.start sampleCfg 0 true noUrlMd seenState emptyWorld).1.proc = true ∧
     Eff.spawn
       (ffmpegCmd sampleCfg noUrlMd (unique_path emptyWorld.fs sampleCfg.out_dir
         (pyStripDashSpace (noUrlMd.artist ++ " - " ++ noUrlMd.title)))) noUrlMd
       ∈ (Recorder.start sampleCfg 0 true noUrlMd seenState emptyWorld).2.trace) ∧
    Recorder.append_index seenState emptyWorld false "" = (seenState, emptyWorld) ∧
    ({ recordingState with current_url := some "" } : RecState).current_url = some "" ∧
    ((Recorder.finalize sampleCfg 0 true true
        { recordingState with current_url := some "" } emptyWorld).1.seen_urls =
       ({ recordingState with current_url := some "" } : RecState).seen_urls ∧
     (Recorder.finalize sampleCfg 0 true true
        { recordingState with current_url := some "" } emptyWorld).2.indexFile =
       emptyWorld.indexFile) :=
  ⟨rfl, empty_url_bypasses_dedupe.1 sampleCfg 0 true noUrlMd seenState emptyWorld rfl,
   empty_url_bypasses_dedupe.2.1 seenState emptyWorld false, rfl,
   empty_url_bypasses_dedupe.2.2 sampleCfg 0 true true
     { recordingState with current_url := some "" } emptyWorld (Or.inr rfl)⟩

-- C8 counterexample + amended theorem
/-- C8 counterexample: recording the empty URL does not add it to the
in-memory set: `_append_index` returns before touching any state. -/
theorem append_index_empty_url_counterexample :
    "" ∉ (Recorder.append_index idleState emptyWorld true "").1.seen_urls := by
  decide

/-- C8 (amended): for every non-empty URL, `_append_index` adds the URL
to the in-memory set whether or not the backing-store append succeeds,
and `_write_status` never affects anything beyond the status file,
whether or not its write succeeds; both are total (all failures
swallowed). -/
theorem persistence_failures_swallowed :
    (∀ (s : RecState) (w : World) (ok : Bool) (url : String), url ≠ "" →
       (Recorder.append_index s w ok url).1 =
         { s with seen_urls := insert url s.seen_urls } ∧
       (Recorder.append_index s w ok url).2.indexFile =
         (if ok then w.indexFile ++ [url] else w.indexFile) ∧
       (Recorder.append_index s w ok url).2.fs = w.fs ∧
       (Recorder.append_index s w ok url).2.statusFile = w.statusFile) ∧
    (∀ (w : World) (ok : Bool) (fields : List (String × SVal)),
       (Recorder.write_status w ok fields).statusFile =
         (if ok then fields else w.statusFile) ∧
       (Recorder.write_status w ok fields).fs = w.fs ∧
       (Recorder.write_status w ok fields).indexFile = w.indexFile) := by
  constructor
  · intro s w ok url hu
    rw [append_index_eq, if_neg hu]
    exact ⟨rfl, rfl, rfl, rfl⟩
  · intro w ok fields
    exact ⟨rfl, rfl, rfl⟩

/-- C8 witness: `persistence_failures_swallowed` on a failing append of
a concrete non-empty URL. -/
theorem persistence_failures_swallowed_witness :
    ("u9" : String) ≠ "" ∧
    ((Recorder.append_index idleState emptyWorld false "u9").1 =
       { idleState with seen_urls := insert "u9" idleState.seen_urls } ∧
     (Recorder.append_index idleState emptyWorld false "u9").2.indexFile =
       (if false then emptyWorld.indexFile ++ ["u9"] else emptyWorld.indexFile) ∧
     (Recorder.append_index idleState emptyWorld false "u9").2.fs = emptyWorld.fs ∧
     (Recorder.append_index idleState emptyWorld false "u9").2.statusFile =
       emptyWorld.statusFile) :=
  ⟨by decide, persistence_failures_swallowed.1 idleState emptyWorld false "u9" (by decide)⟩

-- C2: context invariant ladder
theorem finalize_clear (cfg : Config) (now : ℚ) (i o : Bool) (s : RecState) (w : World)
    (hp : s.proc = true) :
    (Recorder.finalize cfg now i o s w).1.current_path = none ∧
    (Recorder.finalize cfg now i o s w).1.current_started_at = none ∧
    (Recorder.finalize cfg now i o s w).1.current_track_id = none ∧
    (Recorder.finalize cfg now i o s w).1.current_url = none := by
  unfold Recorder.finalize
  simp only [hp, not_true, if_neg, ite_false, ite_true]
  repeat' split
  all_goals simp

theorem ctxInv_finalize (cfg : Config) (now : ℚ) (i o : Bool) (s : RecState) (w : World)
    (h : ctxInv s) : ctxInv (Recorder.finalize cfg now i o s w).1 := by
  by_cases hp : s.proc = true
  · obtain ⟨h1, h2, h3, h4⟩ := finalize_clear cfg now i o s w hp
    have h0 := finalize_fst_proc cfg now i o s w
    constructor
    · rw [h0, h1]; simp
    constructor
    · rw [h0, h2]; simp
    · rw [h0]; intro hf; cases hf
  · simp only [Bool.not_eq_true] at hp
    rw [finalize_not_proc cfg now i o s w hp]
    exact h

theorem ctxInv_start (cfg : Config) (now : ℚ) (o : Bool) (md : Metadata)
    (s : RecState) (w : World) (h : ctxInv s) :
    ctxInv (Recorder.start cfg now o md s w).1 := by
  unfold Recorder.start
  dsimp only
  split
  · obtain ⟨h1, h2, h3⟩ := h
    exact ⟨h1, h2, fun hp => ⟨by simp, by simp⟩⟩
  · exact ⟨by simp, by simp, fun _ => ⟨by simp, by simp⟩⟩

theorem ctxInv_ensure_started (cfg : Config) (ev : Ev) (s : RecState) (w : World)
    (h : ctxInv s) : ctxInv (Recorder.ensure_started cfg ev s w).1 := by
  unfold Recorder.ensure_started
  dsimp only
  repeat' split
  all_goals first
    | exact h
    | exact ctxInv_start _ _ _ _ _ _ h

theorem ctxInv_status_part (cfg : Config) (ev : Ev) (s : RecState) (w : World)
    (h : ctxInv s) : ctxInv (Recorder.status_part cfg ev s w).1 := by
  unfold Recorder.status_part
  cases ev.statusChange with
  | none => exact h
  | some st =>
    dsimp only
    repeat' split
    all_goals first
      | exact h
      | exact ctxInv_finalize _ _ _ _ _ _ h
      | exact ctxInv_ensure_started _ _ _ _ h

theorem ctxInv_metadata_part (cfg : Config) (ev : Ev) (s : RecState) (w : World)
    (h : ctxInv s) : ctxInv (Recorder.metadata_part cfg ev s w).1 := by
  unfold Recorder.metadata_part
  dsimp only
  repeat' split
  all_goals first
    | exact h
    | exact ctxInv_ensure_started _ _ _ _ h
    | exact ctxInv_start _ _ _ _ _ _ (ctxInv_finalize _ _ _ _ _ _ h)

theorem ctxInv_step (cfg : Config) (ev : Ev) (s : RecState) (w : World)
    (h : ctxInv s) : ctxInv (Recorder.on_properties_changed cfg ev s w).1 := by
  unfold Recorder.on_properties_changed
  exact ctxInv_metadata_part _ _ _ _ (ctxInv_status_part _ _ _ _ h)

theorem ctxInv_run (cfg : Config) (evs : List Ev) (sw : RecState × World)
    (h : ctxInv sw.1) : ctxInv (Recorder.run cfg evs sw).1 := by
  induction evs generalizing sw with
  | nil => exact h
  | cons ev rest ih =>
    exact ih _ (ctxInv_step cfg ev sw.1 sw.2 h)

theorem ctxInv_init (cfg : Config) (idx : Option (List String)) (o : Bool) (w : World) :
    ctxInv (Recorder.init cfg idx o w).1 := by
  refine ⟨by simp [Recorder.init], by simp [Recorder.init], by simp [Recorder.init]⟩

-- C2 amended claim theorem
/-- C2 (amended): after any event sequence from a fresh recorder, an
output path or start instant is held iff a child is supervised, and a
supervised child implies the whole context (path, start instant, track
id, URL) is populated.  The converse for track id and URL fails on the
dedupe-skip path, see the counterexample. -/
theorem context_iff_proc_invariant (cfg : Config) (idx : Option (List String))
    (o0 : Bool) (w0 : World) (evs : List Ev) :
    ctxInv (Recorder.run cfg evs (Recorder.init cfg idx o0 w0)).1 :=
  ctxInv_run cfg evs _ (ctxInv_init cfg idx o0 w0)

-- C2 counterexample: the dedupe-skip path sets track id and URL with no child

/-- C2 counterexample: after a dedupe skip the track id and URL fields
are set while no child process is supervised, refuting the claimed
equivalence for "any of the four fields". -/
theorem context_iff_proc_counterexample :
    ¬ ((((Recorder.run sampleCfg [skipEv]
            (Recorder.init sampleCfg (some ["u1"]) true emptyWorld)).1.current_path ≠ none ∨
         (Recorder.run sampleCfg [skipEv]
            (Recorder.init sampleCfg (some ["u1"]) true emptyWorld)).1.current_started_at ≠ none ∨
         (Recorder.run sampleCfg [skipEv]
            (Recorder.init sampleCfg (some ["u1"]) true emptyWorld)).1.current_track_id ≠ none ∨
         (Recorder.run sampleCfg [skipEv]
            (Recorder.init sampleCfg (some ["u1"]) true emptyWorld)).1.current_url ≠ none)) ↔
       (Recorder.run sampleCfg [skipEv]
          (Recorder.init sampleCfg (some ["u1"]) true emptyWorld)).1.proc = true) := by
  decide

-- C1 ladder: traces only grow by effects that are not untitled spawns

theorem subOk_refl (t : List Eff) : subOk t t := fun e he => Or.inl he

theorem subOk_trans {t0 t1 t2 : List Eff} (h1 : subOk t0 t1) (h2 : subOk t1 t2) :
    subOk t0 t2 := by
  intro e he
  rcases h2 e he with h | h
  · exact h1 e h
  · exact Or.inr h

theorem subOk_append {t0 t1 : List Eff} (h : subOk t0 t1) (l : List Eff)
    (hl : ∀ e ∈ l, spawnTitledOk e = true) : subOk t0 (t1 ++ l) := by
  intro e he
  rcases List.mem_append.mp he with h1 | h1
  · exact h e h1
  · exact Or.inr (hl e h1)

theorem subOk_write_status {t0 : List Eff} (w : World) (ok : Bool)
    (fields : List (String × SVal)) (h : subOk t0 w.trace) :
    subOk t0 (Recorder.write_status w ok fields).trace := by
  exact subOk_append h _ (by intro e he; simp at he; subst he; rfl)

theorem subOk_append_index {t0 : List Eff} (s : RecState) (w : World) (ok : Bool)
    (url : String) (h : subOk t0 w.trace) :
    subOk t0 (Recorder.append_index s w ok url).2.trace := by
  rw [append_index_eq]
  split
  · exact h
  · exact subOk_append h _ (by intro e he; simp at he; subst he; rfl)

theorem subOk_finalize {t0 : List Eff} (cfg : Config) (now : ℚ) (i o : Bool)
    (s : RecState) (w : World) (h : subOk t0 w.trace) :
    subOk t0 (Recorder.finalize cfg now i o s w).2.trace := by
  unfold Recorder.finalize
  by_cases hp : s.proc = true
  · simp only [hp, not_true, if_neg, ite_false, ite_true]
    repeat' split
    all_goals apply subOk_write_status
    all_goals first
      | exact h
      | (apply subOk_append_index
         first
           | exact h
           | (apply subOk_append h
              intro e he; simp at he; subst he
              rw [show spawnTitledOk (removeSilent w.fs (s.current_path.getD "")).2 = true by
                rw [removeSilent_eq]; split <;> rfl]))
      | (apply subOk_append h
         intro e he; simp at he; subst he
         rw [show spawnTitledOk (removeSilent w.fs (s.current_path.getD "")).2 = true by
           rw [removeSilent_eq]; split <;> rfl])
  · simp only [Bool.not_eq_true] at hp
    simp only [hp, not_false_iff, ite_true, if_pos]
    exact h

theorem subOk_start {t0 : List Eff} (cfg : Config) (now : ℚ) (o : Bool) (md : Metadata)
    (s : RecState) (w : World) (hmd : md.title ≠ "") (h : subOk t0 w.trace) :
    subOk t0 (Recorder.start cfg now o md s w).2.trace := by
  unfold Recorder.start
  dsimp only
  split
  · exact subOk_write_status _ _ _ h
  · apply subOk_write_status
    apply subOk_append h
    intro e he; simp at he; subst he
    simpa [spawnTitledOk] using hmd

theorem subOk_ensure_started {t0 : List Eff} (cfg : Config) (ev : Ev) (s : RecState)
    (w : World) (h : subOk t0 w.trace) :
    subOk t0 (Recorder.ensure_started cfg ev s w).2.trace := by
  unfold Recorder.ensure_started
  dsimp only
  repeat' split
  all_goals first
    | exact h
    | (apply subOk_start <;> first | assumption | exact h)

theorem subOk_status_part {t0 : List Eff} (cfg : Config) (ev : Ev) (s : RecState)
    (w : World) (h : subOk t0 w.trace) :
    subOk t0 (Recorder.status_part cfg ev s w).2.trace := by
  unfold Recorder.status_part
  cases ev.statusChange with
  | none => exact h
  | some st =>
    dsimp only
    repeat' split
    all_goals first
      | exact h
      | exact subOk_finalize _ _ _ _ _ _ h
      | exact subOk_ensure_started _ _ _ _ h

theorem subOk_metadata_part {t0 : List Eff} (cfg : Config) (ev : Ev) (s : RecState)
    (w : World) (hg : evTitleGuard ev = true) (h : subOk t0 w.trace) :
    subOk t0 (Recorder.metadata_part cfg ev s w).2.trace := by
  unfold Recorder.metadata_part
  dsimp only
  split
  case isTrue hmd =>
    split
    · exact h
    · split
      · exact subOk_ensure_started _ _ _ _ h
      · split
        case isTrue hcond =>
          apply subOk_start
          · simp only [evTitleGuard, Bool.or_eq_true, Bool.not_eq_true',
              decide_eq_true_eq] at hg
            rcases hg with (hg | hg) | hg
            · simp [hmd] at hg
            · exact hg
            · exact absurd hg hcond.1
          · exact subOk_finalize _ _ _ _ _ _ h
        case isFalse _ => exact h
  case isFalse _ => exact h

theorem subOk_step {t0 : List Eff} (cfg : Config) (ev : Ev) (s : RecState) (w : World)
    (hg : evTitleGuard ev = true) (h : subOk t0 w.trace) :
    subOk t0 (Recorder.on_properties_changed cfg ev s w).2.trace := by
  unfold Recorder.on_properties_changed
  exact subOk_metadata_part _ _ _ _ hg (subOk_status_part _ _ _ _ h)

theorem subOk_run {t0 : List Eff} (cfg : Config) (evs : List Ev) (sw : RecState × World)
    (hg : ∀ ev ∈ evs, evTitleGuard ev = true) (h : subOk t0 sw.2.trace) :
    subOk t0 (Recorder.run cfg evs sw).2.trace := by
  induction evs generalizing sw with
  | nil => exact h
  | cons ev rest ih =>
    exact ih _ (fun x hx => hg x (List.mem_cons_of_mem ev hx))
      (subOk_step cfg ev sw.1 sw.2 (hg ev (List.mem_cons_self ev rest)) h)

-- C1 amended claim theorem
/-- C1 (amended): `_ensure_started` never spawns with an empty title;
and along any event sequence in which every metadata change either
carries a title or has no track id, no spawn with an empty title
occurs.  The unguarded track-advance path refutes the original claim,
see the counterexample. -/
theorem no_untitled_spawn :
    (∀ (cfg : Config) (ev : Ev) (s : RecState) (w : World),
       (∀ e ∈ w.trace, spawnTitledOk e = true) →
       ∀ e ∈ (Recorder.ensure_started cfg ev s w).2.trace, spawnTitledOk e = true) ∧
    (∀ (cfg : Config) (idx : Option (List String)) (o0 : Bool) (w0 : World) (evs : List Ev),
       (∀ ev ∈ evs, evTitleGuard ev = true) →
       (∀ e ∈ w0.trace, spawnTitledOk e = true) →
       ∀ e ∈ (Recorder.run cfg evs (Recorder.init cfg idx o0 w0)).2.trace,
         spawnTitledOk e = true) := by
  constructor
  · intro cfg ev s w hw e he
    rcases subOk_ensure_started cfg ev s w (subOk_refl w.trace) e he with h | h
    · exact hw e h
    · exact h
  · intro cfg idx o0 w0 evs hg hw e he
    have h0 : subOk w0.trace (Recorder.init cfg idx o0 w0).2.trace := by
      unfold Recorder.init
      dsimp only
      exact subOk_write_status _ _ _ (subOk_refl _)
    rcases subOk_run cfg evs _ hg h0 e he with h | h
    · exact hw e h
    · exact h


-- C1 counterexample: the track-advance path spawns with an empty title
/-- C1 counterexample: a metadata change with a new non-empty track id
and an empty title, arriving while recording, spawns the encoder with
empty-title metadata. -/
theorem untitled_spawn_counterexample :
    untitledMd.title = "" ∧
    Eff.spawn
      (ffmpegCmd plainCfg untitledMd
        (unique_path ∅ plainCfg.out_dir
          (pyStripDashSpace (untitledMd.artist ++ " - " ++ untitledMd.title))))
      untitledMd
      ∈ (Recorder.run plainCfg [playEv, advanceEv]
          (Recorder.init plainCfg none true emptyWorld)).2.trace := by
  constructor
  · rfl
  · decide

/-- C1 witness: `no_untitled_spawn` on a concrete titled one-event
sequence. -/
theorem no_untitled_spawn_witness :
    (∀ ev ∈ [playEv], evTitleGuard ev = true) ∧
    (∀ e ∈ emptyWorld.trace, spawnTitledOk e = true) ∧
    (∀ e ∈ (Recorder.run plainCfg [playEv]
        (Recorder.init plainCfg none true emptyWorld)).2.trace, spawnTitledOk e = true) ∧
    (∀ e ∈ (Recorder.ensure_started plainCfg playEv seenState emptyWorld).2.trace,
       spawnTitledOk e = true) :=
  ⟨by decide, by decide,
   no_untitled_spawn.2 plainCfg none true emptyWorld [playEv] (by decide) (by decide),
   no_untitled_spawn.1 plainCfg playEv seenState emptyWorld (by decide)⟩

-- C7
theorem to_int_str_spec (v : Option PyNum) :
    to_int_str v = "" ∨ ∃ n : Nat, 0 < n ∧ to_int_str v = natToStr n := by
  match v with
  | none => exact Or.inl rfl
  | some .err => exact Or.inl rfl
  | some (.int i) =>
    by_cases hi : i > 0
    · refine Or.inr ⟨i.toNat, by omega, ?_⟩
      simp only [to_int_str, if_pos hi, intToStr, if_neg (by omega : ¬ i < 0)]
    · exact Or.inl (by simp only [to_int_str, if_neg hi])

/-- C7: the normalizer renders track and disc numbers as the decimal
string of a positive integer or the empty string, treats non-positive,
unparsable and absent values as absent, and defaults every string
field to the empty string. -/
theorem metadata_normalizer_spec (bag : RawBag) :
    ((get_metadata bag).tracknumber = "" ∨
       ∃ n : Nat, 0 < n ∧ (get_metadata bag).tracknumber = natToStr n) ∧
    ((get_metadata bag).discnumber = "" ∨
       ∃ n : Nat, 0 < n ∧ (get_metadata bag).discnumber = natToStr n) ∧
    (∀ i : Int, bag.trackNumber = some (.int i) → i ≤ 0 →
       (get_metadata bag).tracknumber = "") ∧
    (bag.trackNumber = some .err → (get_metadata bag).tracknumber = "") ∧
    (bag.trackNumber = none → (get_metadata bag).tracknumber = "") ∧
    (∀ i : Int, bag.discNumber = some (.int i) → i ≤ 0 →
       (get_metadata bag).discnumber = "") ∧
    (bag.discNumber = some .err → (get_metadata bag).discnumber = "") ∧
    (bag.discNumber = none → (get_metadata bag).discnumber = "") ∧
    (bag.trackid = none → (get_metadata bag).trackid = "") ∧
    (bag.title = none → (get_metadata bag).title = "") ∧
    (bag.album = none → (get_metadata bag).album = "") ∧
    (bag.url = none → (get_metadata bag).url = "") ∧
    (bag.artist = none ∨ bag.artist = some [] → (get_metadata bag).artist = "") := by
  refine ⟨to_int_str_spec bag.trackNumber, to_int_str_spec bag.discNumber,
    ?_, ?_, ?_, ?_, ?_, ?_, ?_, ?_, ?_, ?_, ?_⟩
  · intro i hi hle
    simp only [get_metadata, hi, to_int_str]
    rw [if_neg (by omega : ¬ i > 0)]
  · intro hv; simp [get_metadata, hv, to_int_str]
  · intro hv; simp [get_metadata, hv, to_int_str]
  · intro i hi hle
    simp only [get_metadata, hi, to_int_str]
    rw [if_neg (by omega : ¬ i > 0)]
  · intro hv; simp [get_metadata, hv, to_int_str]
  · intro hv; simp [get_metadata, hv, to_int_str]
  · intro hv; simp [get_metadata, hv]
  · intro hv; simp [get_metadata, hv]
  · intro hv; simp [get_metadata, hv]
  · intro hv; simp [get_metadata, hv]
  · rintro (hv | hv) <;> simp [get_metadata, hv]


/-- C7 witness: `metadata_normalizer_spec` on a concrete bag with a
negative track number and an unparsable disc number. -/
theorem metadata_normalizer_spec_witness :
    sampleBag.trackNumber = some (.int (-3)) ∧ ((-3 : Int) ≤ 0) ∧
    (get_metadata sampleBag).tracknumber = "" ∧
    (get_metadata sampleBag).discnumber = "" ∧
    (get_metadata sampleBag).album = "" :=
  ⟨rfl, by decide,
   (metadata_normalizer_spec sampleBag).2.2.1 (-3) rfl (by decide),
   (metadata_normalizer_spec sampleBag).2.2.2.2.2.2.1 rfl,
   (metadata_normalizer_spec sampleBag).2.2.2.2.2.2.2.2.2.2.1 rfl⟩

-- C6 machinery: the decimal printer is injective
theorem digitChar_inj : ∀ a, a < 10 → ∀ b, b < 10 → digitChar a = digitChar b → a = b := by
  decide

theorem natDigitsRevAux_congr :
    ∀ n f1 f2, n < f1 → n < f2 → natDigitsRevAux f1 n = natDigitsRevAux f2 n := by
  intro n
  induction n using Nat.strong_induction_on with
  | _ n ih =>
    intro f1 f2 h1 h2
    match f1, f2 with
    | a + 1, b + 1 =>
      simp only [natDigitsRevAux]
      by_cases hn : n < 10
      · simp [hn]
      · simp only [hn, ite_false]
        have hpos : 0 < n := by omega
        have hdiv : n / 10 < n := Nat.div_lt_self hpos (by omega)
        rw [ih (n / 10) hdiv a (n / 10 + 1) (by omega) (by omega),
            ih (n / 10) hdiv b (n / 10 + 1) (by omega) (by omega)]

theorem natDigitsRev_unfold (n : Nat) :
    natDigitsRev n =
      if n < 10 then [digitChar n] else digitChar (n % 10) :: natDigitsRev (n / 10) := by
  show natDigitsRevAux (n + 1) n = _
  simp only [natDigitsRevAux]
  by_cases hn : n < 10
  · simp [hn]
  · simp only [hn, ite_false]
    have hdiv : n / 10 < n := Nat.div_lt_self (by omega) (by omega)
    rw [natDigitsRevAux_congr (n / 10) n (n / 10 + 1) (by omega) (by omega)]
    rfl

theorem natDigitsRev_ne_nil (n : Nat) : natDigitsRev n ≠ [] := by
  rw [natDigitsRev_unfold]
  split <;> simp

theorem natDigitsRev_inj : ∀ n m, natDigitsRev n = natDigitsRev m → n = m := by
  intro n
  induction n using Nat.strong_induction_on with
  | _ n ih =>
    intro m h
    rw [natDigitsRev_unfold n, natDigitsRev_unfold m] at h
    by_cases hn : n < 10 <;> by_cases hm : m < 10
    · simp only [hn, hm, ite_true] at h
      exact digitChar_inj n hn m hm (List.singleton_injective h)
    · simp only [hn, hm, ite_true, ite_false] at h
      exact absurd (List.tail_eq_of_cons_eq h).symm (natDigitsRev_ne_nil (m / 10))
    · simp only [hn, hm, ite_true, ite_false] at h
      exact absurd (List.tail_eq_of_cons_eq h) (natDigitsRev_ne_nil (n / 10))
    · simp only [hn, hm, ite_false] at h
      have h1 := digitChar_inj (n % 10) (Nat.mod_lt n (by omega)) (m % 10)
        (Nat.mod_lt m (by omega)) (List.head_eq_of_cons_eq h)
      have h2 := ih (n / 10) (Nat.div_lt_self (by omega) (by omega)) (m / 10)
        (List.tail_eq_of_cons_eq h)
      omega

theorem natToStr_inj : ∀ n m, natToStr n = natToStr m → n = m := by
  intro n m h
  have hd : (natDigitsRev n).reverse = (natDigitsRev m).reverse := congrArg String.data h
  exact natDigitsRev_inj n m (List.reverse_injective hd)

theorem candPath_inj (out_dir base : String) :
    Function.Injective (candPath out_dir base) := by
  intro i j h
  have hd := congrArg String.data h
  simp only [candPath, String.data_append] at hd
  rw [List.append_assoc, List.append_assoc, List.append_assoc, List.append_assoc,
      List.append_assoc, List.append_assoc, List.append_assoc, List.append_assoc] at hd
  have h1 := List.append_cancel_left hd
  have h2 := List.append_cancel_left h1
  have h3 := List.append_cancel_left h2
  have h4 := List.append_cancel_left h3
  have h5 := List.append_cancel_right h4
  exact natToStr_inj i j (String.ext h5)

theorem unique_path_loop_spec (fs : Finset String) (out_dir base : String) :
    ∀ (fuel i : Nat), (∃ k < fuel, candPath out_dir base (i + k) ∉ fs) →
      unique_path_loop fs out_dir base i fuel ∉ fs := by
  intro fuel
  induction fuel with
  | zero =>
    intro i ⟨k, hk, _⟩
    omega
  | succ fuel ih =>
    intro i ⟨k, hk, hfree⟩
    simp only [unique_path_loop]
    split
    · next hmem =>
      apply ih
      match k, hfree with
      | 0, hfree => exact absurd (by simpa using hmem) (by simpa using hfree)
      | k + 1, hfree =>
        exact ⟨k, by omega, by rw [show i + 1 + k = i + (k + 1) by omega]; exact hfree⟩
    · next hmem => exact hmem

theorem unique_path_exists_free (fs : Finset String) (out_dir base : String) (i : Nat) :
    ∃ k < fs.card + 1, candPath out_dir base (i + k) ∉ fs := by
  by_contra hall
  push_neg at hall
  have himg : (Finset.range (fs.card + 1)).image (fun k => candPath out_dir base (i + k)) ⊆ fs := by
    intro p hp
    rcases Finset.mem_image.mp hp with ⟨k, hk, rfl⟩
    exact hall k (Finset.mem_range.mp hk)
  have hinj : Function.Injective (fun k => candPath out_dir base (i + k)) := by
    intro a b hab
    have := candPath_inj out_dir base hab
    omega
  have hcard := Finset.card_le_card himg
  rw [Finset.card_image_of_injective _ hinj, Finset.card_range] at hcard
  omega

theorem unique_path_spec (fs : Finset String) (out_dir base : String) :
    unique_path fs out_dir base ∉ fs := by
  unfold unique_path
  dsimp only
  split
  · exact unique_path_loop_spec fs out_dir (sanitize base) (fs.card + 1) 2
      (unique_path_exists_free fs out_dir (sanitize base) 2)
  · next h => exact h

theorem unique_path_iter_fresh (out_dir base : String) :
    ∀ (n : Nat) (fs fs0 : Finset String), fs0 ⊆ fs →
      ∀ q ∈ unique_path_iter out_dir base fs n, q ∉ fs0 := by
  intro n
  induction n with
  | zero => intro fs fs0 _ q hq; simp [unique_path_iter] at hq
  | succ n ih =>
    intro fs fs0 hsub q hq
    simp only [unique_path_iter, List.mem_cons] at hq
    rcases hq with rfl | hq
    · intro h0
      exact unique_path_spec fs out_dir base (hsub h0)
    · exact ih (insert (unique_path fs out_dir base) fs) fs0
        (hsub.trans (Finset.subset_insert _ _)) q hq

theorem unique_path_iter_nodup (out_dir base : String) :
    ∀ (n : Nat) (fs : Finset String), (unique_path_iter out_dir base fs n).Nodup := by
  intro n
  induction n with
  | zero => intro fs; simp [unique_path_iter]
  | succ n ih =>
    intro fs
    simp only [unique_path_iter, List.nodup_cons]
    refine ⟨?_, ih _⟩
    intro hmem
    have := unique_path_iter_fresh out_dir base n
      (insert (unique_path fs out_dir base) fs) {unique_path fs out_dir base}
      (by simp) _ hmem
    simp at this

-- C6 claim theorem
/-- C6: `unique_path` always returns a path not among the existing
files, and iterating it for one base name, marking each result as
existing, yields pairwise distinct paths never colliding with the
original files. -/
theorem unique_path_never_collides :
    (∀ (fs : Finset String) (out_dir base : String), unique_path fs out_dir base ∉ fs) ∧
    (∀ (out_dir base : String) (fs : Finset String) (n : Nat),
       (unique_path_iter out_dir base fs n).Nodup ∧
       ∀ q ∈ unique_path_iter out_dir base fs n, q ∉ fs) :=
  ⟨unique_path_spec,
   fun out_dir base fs n =>
     ⟨unique_path_iter_nodup out_dir base n fs,
      unique_path_iter_fresh out_dir base n fs fs (Finset.Subset.refl fs)⟩⟩

/-- C2 witness: the amended invariant instantiated on a concrete
one-event run through the dedupe-skip path. -/
theorem context_iff_proc_invariant_witness :
    ctxInv (Recorder.run sampleCfg [skipEv]
      (Recorder.init sampleCfg (some ["u1"]) true emptyWorld)).1 :=
  context_iff_proc_invariant sampleCfg (some ["u1"]) true emptyWorld [skipEv]

/-- C6 witness: freshness and pairwise distinctness at concrete
inputs. -/
theorem unique_path_never_collides_witness :
    unique_path {"out/x.flac"} "out" "x" ∉ ({"out/x.flac"} : Finset String) ∧
    (unique_path_iter "out" "x" ∅ 3).Nodup ∧
    ∀ q ∈ unique_path_iter "out" "x" ∅ 3, q ∉ (∅ : Finset String) :=
  ⟨unique_path_never_collides.1 {"out/x.flac"} "out" "x",
   (unique_path_never_collides.2 "out" "x" ∅ 3).1,
   (unique_path_never_collides.2 "out" "x" ∅ 3).2⟩

end TrackRec
